import Mathlib

/-!
Verification development for the planner reminder scheduler of the Zenflow
app.  The definitions below are a shallow embedding of the TypeScript module
that implements the planner state model, the entry projector and the
notification scheduler (`getPlannerEntries`, `updatePlannerCompletion`,
`addPlannerItem`, `removePlannerItem`, `plannerNotificationId`,
`schedulePlannerNotifications` and their helpers).

Modelling conventions:
* JavaScript `Date` values are modelled as `Option Int`: `some t` is a valid
  date holding `t` milliseconds since the epoch of the (timezone-naive) local
  calendar, `none` is an `Invalid Date` (`NaN` timestamp).  Comparisons with
  an invalid date are false, exactly as `NaN` comparisons in JS.
* `new Date("YYYY-MM-DDTHH:MM:SS")` is modelled by a parser for the ECMA-262
  date-time string format (date forms `YYYY`, `YYYY-MM`, `YYYY-MM-DD` with a
  mandatory local `T HH:MM:SS` time here; hour 24:00:00 is accepted).
  Expanded (six-digit) years and timezone suffixes never arise from the
  scheduler's call sites and are not modelled.
* JS objects used as string-keyed records are modelled as association lists
  with unique keys and first-match lookup.
* The JS relational comparison `<=` on strings compares UTF-16 code units
  lexicographically and is modelled by `jsStringLe`; `localeCompare` on the
  zero-padded "HH:MM" strings sorted here is modelled as the lexicographic
  order on Lean strings.
* `Array.prototype.sort` (stable in JS) is modelled by a stable insertion
  sort on the comparator's key.
* Constant platform flags of the notification descriptors
  (`allowWhileIdle: true`) and the channel-creation calls (which do not
  affect the pending-notification set) are not represented.
-/

/-- First decimal digits of a character list, as `Number.parseInt` radix 10
reads them: `none` when there is no leading digit (`NaN`). -/
def leadingNatValue (cs : List Char) : Option Nat :=
  let ds := cs.takeWhile (fun c => '0' ≤ c && c ≤ '9')
  if ds.isEmpty then none else some (ds.foldl (fun a c => 10 * a + (c.toNat - 48)) 0)

/-- Model of `Number.parseInt(s, 10)`: optional whitespace, optional sign,
then a decimal-digit prefix; `none` models `NaN`. -/
def jsParseInt (s : String) : Option Int :=
  let cs := s.data.dropWhile (fun c => c == ' ' || c == '\t' || c == '\n' || c == '\r')
  match cs with
  | '-' :: rest => (leadingNatValue rest).map (fun n => -(n : Int))
  | '+' :: rest => (leadingNatValue rest).map (fun n => (n : Int))
  | rest => (leadingNatValue rest).map (fun n => (n : Int))

/-- Model of `String(n).padStart(2, '0')` for an integer `n`. -/
def padTwo (n : Int) : String :=
  let s := toString n
  if s.length < 2 then "0" ++ s else s

/-- Model of the JS `| 0` coercion: wrap an exact integer into the signed
32-bit range. -/
def toSigned32 (n : Int) : Int :=
  (n + 2147483648) % 4294967296 - 2147483648

/-- UTF-16 code units of a character, as `String.prototype.charCodeAt`
enumerates them. -/
def utf16CodeUnits (c : Char) : List Nat :=
  let v := c.toNat
  if v < 65536 then [v] else [55296 + (v - 65536) / 1024, 56320 + (v - 65536) % 1024]

/-- Source `plannerNotificationId`: polynomial rolling hash over the UTF-16
code units with 32-bit wraparound at each step (`hash * 31 + code | 0`),
then `Math.abs(hash) % 2000000000`. -/
def plannerNotificationId (input : String) : Int :=
  (((input.data.flatMap utf16CodeUnits).foldl
      (fun h c => toSigned32 (h * 31 + (c : Int))) 0).natAbs % 2000000000 : Nat)

/-- Lexicographic comparison of code-unit sequences. -/
def unitsLe : List Nat → List Nat → Bool
  | [], _ => true
  | _ :: _, [] => false
  | x :: xs, y :: ys => if x < y then true else if y < x then false else unitsLe xs ys

/-- Model of the JS relational operator `a <= b` on strings: lexicographic
comparison of the UTF-16 code-unit sequences. -/
def jsStringLe (a b : String) : Bool :=
  unitsLe (a.data.flatMap utf16CodeUnits) (b.data.flatMap utf16CodeUnits)

/-- Proleptic Gregorian leap-year test (as JS `Date` uses). -/
def isLeapYear (y : Int) : Bool :=
  (y % 4 == 0 && y % 100 != 0) || y % 400 == 0

/-- Number of days of month `m` (1-based) in year `y`. -/
def daysInMonth (y m : Int) : Int :=
  if m == 2 then (if isLeapYear y then 29 else 28)
  else if m == 4 || m == 6 || m == 9 || m == 11 then 30
  else 31

/-- Day number (days since 1970-01-01) of a civil date, by the standard
era-based conversion. -/
def daysFromCivil (y m d : Int) : Int :=
  let y2 := if m ≤ 2 then y - 1 else y
  let era := y2.fdiv 400
  let yoe := y2 - era * 400
  let doy := (153 * (if m > 2 then m - 3 else m + 9) + 2) / 5 + d - 1
  let doe := yoe * 365 + yoe / 4 - yoe / 100 + doy
  era * 146097 + doe - 719468

/-- Civil date `(year, month, day)` of a day number; inverse of
`daysFromCivil`. -/
def civilFromDays (z : Int) : Int × Int × Int :=
  let z2 := z + 719468
  let era := z2.fdiv 146097
  let doe := z2 - era * 146097
  let yoe := (doe - doe / 1460 + doe / 36524 - doe / 146096) / 365
  let y := yoe + era * 400
  let doy := doe - (365 * yoe + yoe / 4 - yoe / 100)
  let mp := (5 * doy + 2) / 153
  let d := doy - (153 * mp + 2) / 5 + 1
  let m := if mp < 10 then mp + 3 else mp - 9
  (if m ≤ 2 then y + 1 else y, m, d)

/-- Milliseconds-since-epoch instant of a validated date-time, given as
decimal digit characters (year, month, day, hour, minute, second); `none`
when a component is out of range.  Hour 24 with minute and second 0 denotes
the following midnight, as in ECMA-262. -/
def instantOfDigits (ys ms ds hs ns ss : List Char) : Option Int :=
  if (ys ++ ms ++ ds ++ hs ++ ns ++ ss).all (fun c => '0' ≤ c && c ≤ '9') then
    let nat := fun (l : List Char) => (l.foldl (fun a c => 10 * a + (c.toNat - 48)) 0 : Int)
    let y := nat ys
    let mo := nat ms
    let d := nat ds
    let h := nat hs
    let mi := nat ns
    let se := nat ss
    if 1 ≤ mo && mo ≤ 12 && 1 ≤ d && d ≤ daysInMonth y mo
        && ((h ≤ 23 && mi ≤ 59 && se ≤ 59) || (h == 24 && mi == 0 && se == 0)) then
      some (daysFromCivil y mo d * 86400000 + h * 3600000 + mi * 60000 + se * 1000)
    else none
  else none

/-- Model of `new Date(s)` for a local ECMA-262 date-time string
(`YYYY[-MM[-DD]]THH:MM:SS`): `none` models an `Invalid Date`. -/
def parseIsoLocal (s : String) : Option Int :=
  match s.data with
  | [y1, y2, y3, y4, '-', a1, a2, '-', b1, b2, 'T', h1, h2, ':', n1, n2, ':', s1, s2] =>
      instantOfDigits [y1, y2, y3, y4] [a1, a2] [b1, b2] [h1, h2] [n1, n2] [s1, s2]
  | [y1, y2, y3, y4, '-', a1, a2, 'T', h1, h2, ':', n1, n2, ':', s1, s2] =>
      instantOfDigits [y1, y2, y3, y4] [a1, a2] ['0', '1'] [h1, h2] [n1, n2] [s1, s2]
  | [y1, y2, y3, y4, 'T', h1, h2, ':', n1, n2, ':', s1, s2] =>
      instantOfDigits [y1, y2, y3, y4] ['0', '1'] ['0', '1'] [h1, h2] [n1, n2] [s1, s2]
  | _ => none

/-- Source `createDateTime`: parse the date key and "HH:MM" time as the
local instant denoted by the template literal. -/
def createDateTime (dateKey time : String) : Option Int :=
  parseIsoLocal (dateKey ++ "T" ++ time ++ ":00")

/-- The date-key portion of the strict `YYYY-MM-DD` calendar parse: `none`
when the ten-character zero-padded form or its calendar ranges fail. -/
def parseDateKeyISO (s : String) : Option (Int × Int × Int) :=
  match s.data with
  | [y1, y2, y3, y4, '-', a1, a2, '-', b1, b2] =>
      if [y1, y2, y3, y4, a1, a2, b1, b2].all (fun c => '0' ≤ c && c ≤ '9') then
        let nat := fun (l : List Char) => (l.foldl (fun a c => 10 * a + (c.toNat - 48)) 0 : Int)
        let y := nat [y1, y2, y3, y4]
        let mo := nat [a1, a2]
        let d := nat [b1, b2]
        if 1 ≤ mo && mo ≤ 12 && 1 ≤ d && d ≤ daysInMonth y mo then some (y, mo, d) else none
      else none
  | _ => none

/-- Comparison `date <= referenceDate` between a possibly invalid JS date
and a valid reference instant: always false for an invalid date, exactly as
`NaN <= x` in JS. -/
def jsLeDate : Option Int → Int → Bool
  | none, _ => false
  | some a, b => decide (a ≤ b)

/-- Source `RequiredPlannerTaskKey`: the closed enum of required tasks. -/
inductive RequiredPlannerTaskKey
  | water
  | exercise
  | meditation
deriving DecidableEq

/-- String form of a required task key, as it appears in ids and hash keys. -/
def RequiredPlannerTaskKey.str : RequiredPlannerTaskKey → String
  | .water => "water"
  | .exercise => "exercise"
  | .meditation => "meditation"

/-- Source `PlannerRepeat`. -/
inductive PlannerRepeat
  | once
  | daily
deriving DecidableEq

/-- Source `PlannerCustomItem`; the optional `repeat` field is `none` when
absent. -/
structure PlannerCustomItem where
  id : String
  title : String
  date : String
  time : String
  «repeat» : Option PlannerRepeat
deriving DecidableEq

/-- The partial `reminderTimes` record (`Partial<Record<RequiredPlannerTaskKey,
string>>`): each key may be absent. -/
structure ReminderTimesOpt where
  water : Option String
  exercise : Option String
  meditation : Option String
deriving DecidableEq

/-- A total reminder-times record, the result shape of `getReminderTimes`. -/
structure ReminderTimes where
  water : String
  exercise : String
  meditation : String
deriving DecidableEq

/-- Key-indexed access into a partial reminder-times record. -/
def ReminderTimesOpt.get : ReminderTimesOpt → RequiredPlannerTaskKey → Option String
  | t, .water => t.water
  | t, .exercise => t.exercise
  | t, .meditation => t.meditation

/-- Key-indexed access into a total reminder-times record
(`reminderTimes[task.key]`). -/
def ReminderTimes.get : ReminderTimes → RequiredPlannerTaskKey → String
  | t, .water => t.water
  | t, .exercise => t.exercise
  | t, .meditation => t.meditation

/-- Injection of a total record into the partial field shape (every key
present). -/
def ReminderTimes.toOpt (t : ReminderTimes) : ReminderTimesOpt :=
  ⟨some t.water, some t.exercise, some t.meditation⟩

/-- Source `defaultReminderTimes`. -/
def defaultReminderTimes : ReminderTimes :=
  ⟨"06:45", "07:15", "07:45"⟩

/-- Source `PlannerMeta`: every field optional, completions and the custom
item list modelled as association lists / plain lists. -/
structure PlannerMeta where
  remindersEnabled : Option Bool
  reminderTimes : Option ReminderTimesOpt
  customItems : Option (List PlannerCustomItem)
  completions : Option (List (String × List (String × Bool)))
deriving DecidableEq

/-- Source `PlannerEntry` (derived, never persisted). -/
structure PlannerEntry where
  id : String
  title : String
  date : String
  time : String
  required : Bool
  completed : Bool
  «repeat» : PlannerRepeat
deriving DecidableEq

/-- The entry of `requiredTaskDefinitions`. -/
structure RequiredTaskDef where
  key : RequiredPlannerTaskKey
  title : String
deriving DecidableEq

/-- Source `requiredTaskDefinitions` in its fixed order. -/
def requiredTaskDefinitions : List RequiredTaskDef :=
  [⟨.water, "Drink water"⟩, ⟨.exercise, "Exercise"⟩, ⟨.meditation, "Meditation"⟩]

/-- The per-task notification channel reference of
`requiredNotificationChannels`. -/
structure NotificationChannelRef where
  id : String
  sound : String
deriving DecidableEq

/-- Source `requiredNotificationChannels`. -/
def requiredNotificationChannels : RequiredPlannerTaskKey → NotificationChannelRef
  | .water => ⟨"planner-water-reminders", "water_ping.wav"⟩
  | .exercise => ⟨"planner-exercise-reminders", "exercise_alert.wav"⟩
  | .meditation => ⟨"planner-meditation-reminders", "meditation_bell.wav"⟩

/-- Source `requiredReminderSteps`: escalation offsets in minutes. -/
def requiredReminderSteps : RequiredPlannerTaskKey → List Int
  | .water => [10, 20, 30, 45, 60]
  | .exercise => [15, 30, 45]
  | .meditation => [15, 30, 45]

/-- The `planner?.customItems || []` access. -/
def customItemsOf (planner : Option PlannerMeta) : List PlannerCustomItem :=
  (planner.bind (fun p => p.customItems)).getD []

/-- The `planner?.completions || {}` access. -/
def completionsOf (planner : Option PlannerMeta) : List (String × List (String × Bool)) :=
  (planner.bind (fun p => p.completions)).getD []

/-- The `Boolean(completions?.[dateKey]?.[entryId])` lookup used both by the
projector and by the scheduler's `dayCompletions`. -/
def getCompletion (planner : Option PlannerMeta) (dateKey entryId : String) : Bool :=
  ((((completionsOf planner).lookup dateKey).getD []).lookup entryId).getD false

/-- Source `getReminderTimes`: defaults overridden by the present keys of
`planner?.reminderTimes` (object spread). -/
def getReminderTimes (planner : Option PlannerMeta) : ReminderTimes :=
  let rt := (planner.bind (fun p => p.reminderTimes)).getD ⟨none, none, none⟩
  ⟨rt.water.getD defaultReminderTimes.water,
   rt.exercise.getD defaultReminderTimes.exercise,
   rt.meditation.getD defaultReminderTimes.meditation⟩

/-- Stable insertion of `x` into `l` behind every element whose key is not
greater: the insertion step of a stable sort equivalent to JS
`Array.prototype.sort` under a key-based comparator. -/
def insertKeyed {α : Type} (key : α → String) (x : α) : List α → List α
  | [] => [x]
  | y :: ys => if key y ≤ key x then y :: insertKeyed key x ys else x :: y :: ys

/-- Stable sort by a string key, modelling `Array.prototype.sort` with the
comparator `(l, r) => key(l).localeCompare(key(r))`. -/
def sortKeyed {α : Type} (key : α → String) (l : List α) : List α :=
  l.foldl (fun acc x => insertKeyed key x acc) []

/-- The custom-item inclusion predicate of `getPlannerEntries` and of the
scheduler's lookahead loop: a daily item from its start date on, a one-time
item exactly on its date. -/
def plannerCustomFilter (dateKey : String) (item : PlannerCustomItem) : Bool :=
  if item.«repeat» == some .daily then jsStringLe item.date dateKey else item.date == dateKey

/-- The three required entries of a day, in the fixed definition order. -/
def requiredEntriesFor (dateKey : String) (planner : Option PlannerMeta) : List PlannerEntry :=
  requiredTaskDefinitions.map (fun task =>
    { id := "required-" ++ task.key.str
      title := task.title
      date := dateKey
      time := (getReminderTimes planner).get task.key
      required := true
      completed := getCompletion planner dateKey ("required-" ++ task.key.str)
      «repeat» := .daily })

/-- The entry a custom item projects to for a day. -/
def customEntryFor (dateKey : String) (planner : Option PlannerMeta)
    (item : PlannerCustomItem) : PlannerEntry :=
  { id := item.id
    title := item.title
    date := item.date
    time := item.time
    required := false
    completed := getCompletion planner dateKey item.id
    «repeat» := item.«repeat».getD .once }

/-- The projected custom entries of a day. -/
def customEntriesFor (dateKey : String) (planner : Option PlannerMeta) : List PlannerEntry :=
  ((customItemsOf planner).filter (plannerCustomFilter dateKey)).map (customEntryFor dateKey planner)

/-- The concatenation `[...requiredEntries, ...customEntries]` before the
final sort. -/
def plannerEntriesUnsorted (dateKey : String) (planner : Option PlannerMeta) : List PlannerEntry :=
  requiredEntriesFor dateKey planner ++ customEntriesFor dateKey planner

/-- Source `getPlannerEntries`: required plus filtered custom entries,
stable-sorted by the time string. -/
def getPlannerEntries (dateKey : String) (planner : Option PlannerMeta) : List PlannerEntry :=
  sortKeyed (fun e => e.time) (plannerEntriesUnsorted dateKey planner)

/-- Object-spread update `{...obj, [k]: v}` on a string-keyed record. -/
def setKey {β : Type} (l : List (String × β)) (k : String) (v : β) : List (String × β) :=
  if (l.lookup k).isSome then l.map (fun p => if p.1 == k then (k, v) else p) else l ++ [(k, v)]

/-- Source `updatePlannerCompletion`: returns a new normalized `PlannerMeta`
with the completion flag written at `completions[dateKey][taskId]`. -/
def updatePlannerCompletion (planner : Option PlannerMeta) (dateKey taskId : String)
    (completed : Bool) : PlannerMeta :=
  let prev := completionsOf planner
  let nextDay := setKey ((prev.lookup dateKey).getD []) taskId completed
  { remindersEnabled := some ((planner.bind (fun p => p.remindersEnabled)).getD true)
    reminderTimes := some (getReminderTimes planner).toOpt
    customItems := some (customItemsOf planner)
    completions := some (setKey prev dateKey nextDay) }

/-- Source `addPlannerItem`: appends the item (defaulting a missing repeat
to `once`) and keeps the list sorted by the `date-time` key. -/
def addPlannerItem (planner : Option PlannerMeta) (item : PlannerCustomItem) : PlannerMeta :=
  { remindersEnabled := some ((planner.bind (fun p => p.remindersEnabled)).getD true)
    reminderTimes := some (getReminderTimes planner).toOpt
    customItems := some (sortKeyed (fun i => i.date ++ "-" ++ i.time)
      (customItemsOf planner ++ [{ item with «repeat» := some (item.«repeat».getD .once) }]))
    completions := some (completionsOf planner) }

/-- Source `removePlannerItem`: drops the item and strips its completion
entries from every day. -/
def removePlannerItem (planner : Option PlannerMeta) (itemId : String) : PlannerMeta :=
  { remindersEnabled := some ((planner.bind (fun p => p.remindersEnabled)).getD true)
    reminderTimes := some (getReminderTimes planner).toOpt
    customItems := some ((customItemsOf planner).filter (fun i => i.id != itemId))
    completions := some ((completionsOf planner).map (fun p =>
      (p.1, p.2.filter (fun q => q.1 != itemId)))) }

/-- The `schedule` field of a descriptor: a one-shot instant (possibly an
invalid date) or a daily-recurring wall-clock trigger with `parseInt`-derived
hour and minute. -/
inductive NotifSchedule
  | at (instant : Option Int)
  | on (hour : Option Int) (minute : Option Int) (repeats : Bool)
deriving DecidableEq

/-- The `extra` metadata attached to every planner descriptor; fields absent
in some descriptor shapes are `Option`s. -/
structure NotifExtra where
  kind : String
  taskId : String
  dateKey : Option String
  required : Bool
  order : Option Nat
  reminderIndex : Option Nat
  loop : Option String
deriving DecidableEq

/-- One `LocalNotificationSchema` descriptor as the scheduler emits it. -/
structure Notification where
  id : Int
  title : String
  body : String
  schedule : NotifSchedule
  channelId : String
  extra : NotifExtra
deriving DecidableEq

/-- Hour and minute of a time string by
`time.split(':').map(v => Number.parseInt(v, 10))` and destructuring. -/
def timeHourMin (time : String) : Option Int × Option Int :=
  let parts := (time.split (fun c => c == ':')).map jsParseInt
  (((parts.get? 0).join), ((parts.get? 1).join))

/-- The base repeating descriptor of a required task (loop `daily-base`). -/
def mkBaseNotification (planner : Option PlannerMeta) (taskIndex : Nat)
    (task : RequiredTaskDef) : Notification :=
  let time := (getReminderTimes planner).get task.key
  { id := plannerNotificationId ("daily-" ++ task.key.str)
    title := task.title
    body := "Daily routine reminder for " ++ time ++ "."
    schedule := .on (timeHourMin time).1 (timeHourMin time).2 true
    channelId := (requiredNotificationChannels task.key).id
    extra := { kind := "planner", taskId := "required-" ++ task.key.str, dateKey := none
               required := true, order := some taskIndex, reminderIndex := none
               loop := some "daily-base" } }

/-- The three base repeating descriptors, pushed first by the scheduler. -/
def baseNotifications (planner : Option PlannerMeta) : List Notification :=
  requiredTaskDefinitions.enum.map (fun p => mkBaseNotification planner p.1 p.2)

/-- A one-shot follow-up descriptor of a required task (loop `follow-up`). -/
def mkFollowUpNotification (dateKey : String) (taskIndex : Nat) (task : RequiredTaskDef)
    (reminderIndex : Nat) (instant : Option Int) : Notification :=
  { id := plannerNotificationId
      (dateKey ++ "-" ++ ("required-" ++ task.key.str) ++ "-followup-" ++ toString reminderIndex)
    title := task.title
    body := task.title ++ " is still pending. Open the planner and tick it complete."
    schedule := .at instant
    channelId := (requiredNotificationChannels task.key).id
    extra := { kind := "planner", taskId := "required-" ++ task.key.str, dateKey := some dateKey
               required := true, order := some taskIndex, reminderIndex := some reminderIndex
               loop := some "follow-up" } }

/-- Follow-up descriptors of one required task on one lookahead day: nothing
when the task is completed for the day or its base instant is not after the
reference instant; otherwise one descriptor per escalation offset whose
instant is after the reference instant. -/
def taskFollowUps (planner : Option PlannerMeta) (referenceDate : Int) (dateKey : String)
    (taskIndex : Nat) (task : RequiredTaskDef) : List Notification :=
  if getCompletion planner dateKey ("required-" ++ task.key.str) then []
  else
    let base := createDateTime dateKey ((getReminderTimes planner).get task.key)
    if jsLeDate base referenceDate then []
    else
      (requiredReminderSteps task.key).enum.filterMap (fun p =>
        let rdt := base.map (fun b => b + p.2 * 60000)
        if jsLeDate rdt referenceDate then none
        else some (mkFollowUpNotification dateKey taskIndex task p.1 rdt))

/-- Follow-up descriptors of all required tasks on one lookahead day, in
definition order. -/
def dayFollowUps (planner : Option PlannerMeta) (referenceDate : Int)
    (dateKey : String) : List Notification :=
  requiredTaskDefinitions.enum.flatMap (fun p => taskFollowUps planner referenceDate dateKey p.1 p.2)

/-- A one-shot descriptor of a custom item. -/
def mkCustomOneShot (item : PlannerCustomItem) (instant : Option Int) : Notification :=
  { id := plannerNotificationId (item.date ++ "-" ++ item.id)
    title := item.title
    body := "Scheduled for " ++ item.time ++ "."
    schedule := .at instant
    channelId := "planner-reminders"
    extra := { kind := "planner", taskId := item.id, dateKey := some item.date
               required := false, order := none, reminderIndex := none, loop := none } }

/-- One-shot descriptors of the custom items due on one lookahead day:
daily-repeating items are skipped inside the loop, and instants not after
the reference instant (including invalid dates, which compare false and are
therefore pushed) follow the source's comparison. -/
def dayCustomOneShots (planner : Option PlannerMeta) (referenceDate : Int)
    (dateKey : String) : List Notification :=
  ((customItemsOf planner).filter (fun item =>
      plannerCustomFilter dateKey item && !getCompletion planner dateKey item.id)).filterMap
    (fun item =>
      if item.«repeat» == some .daily then none
      else
        let idt := createDateTime item.date item.time
        if jsLeDate idt referenceDate then none
        else some (mkCustomOneShot item idt))

/-- The daily repeating descriptor of a daily custom item (loop
`daily-custom`). -/
def mkDailyCustomNotification (item : PlannerCustomItem) : Notification :=
  { id := plannerNotificationId ("daily-custom-" ++ item.id)
    title := item.title
    body := "Daily reminder for " ++ item.time ++ "."
    schedule := .on (timeHourMin item.time).1 (timeHourMin item.time).2 true
    channelId := "planner-reminders"
    extra := { kind := "planner", taskId := item.id, dateKey := none
               required := false, order := none, reminderIndex := none
               loop := some "daily-custom" } }

/-- The global repeating descriptors of the daily custom items, pushed after
the lookahead loop. -/
def dailyCustomNotifications (planner : Option PlannerMeta) : List Notification :=
  ((customItemsOf planner).filter (fun item => item.«repeat» == some .daily)).map
    mkDailyCustomNotification

/-- Day key of `referenceDate`'s calendar day shifted by `off` days: the
`setHours(0,0,0,0)`, `setDate(getDate() + dayOffset)` and template-literal
rendering of the lookahead loop. -/
def lookaheadKey (referenceDate : Int) (off : Nat) : String :=
  let c := civilFromDays (referenceDate.fdiv 86400000 + off)
  toString c.1 ++ "-" ++ padTwo c.2.1 ++ "-" ++ padTwo c.2.2

/-- The full descriptor list the scheduler computes once it is past the
permission gate, the cancellation sweep and the global-disable check: base
repeating descriptors, then per-day follow-ups and custom one-shots over the
5-day lookahead window, then daily custom repeating descriptors. -/
def plannerDescriptors (planner : Option PlannerMeta) (referenceDate : Int) : List Notification :=
  baseNotifications planner
    ++ (List.range 5).flatMap (fun off =>
        let dateKey := lookaheadKey referenceDate off
        dayFollowUps planner referenceDate dateKey
          ++ dayCustomOneShots planner referenceDate dateKey)
    ++ dailyCustomNotifications planner

/-- One entry of the device's pending-notification list, with the
`extra?.kind` tag the cancellation sweep filters on. -/
structure PendingNotification where
  id : Int
  extraKind : Option String
deriving DecidableEq

/-- The device-side conditions an invocation of the scheduler runs against:
platform, the display-permission answers of `checkPermissions` and
`requestPermissions`, and the currently pending notifications. -/
structure DeviceEnv where
  platform : String
  checkDisplay : String
  requestDisplay : String
  pending : List PendingNotification
deriving DecidableEq

/-- The port calls an invocation issues: the ids passed to `cancel` (none
when no cancel call is made) and the descriptor list passed to `schedule`
(none when no schedule call is made). -/
structure SchedulerResult where
  cancelCall : Option (List Int)
  scheduleCall : Option (List Notification)
deriving DecidableEq

/-- Source `schedulePlannerNotifications` control flow: return immediately
on the web platform; permission gate (query, then request); cancellation
sweep over the pending notifications tagged `kind = "planner"` (a cancel
call only when that set is non-empty); stop after the sweep when
`remindersEnabled === false`; otherwise compute the descriptor list and
issue a schedule call when it is non-empty. -/
def schedulePlannerNotifications (env : DeviceEnv) (planner : Option PlannerMeta)
    (referenceDate : Int) : SchedulerResult :=
  if env.platform == "web" then ⟨none, none⟩
  else if env.checkDisplay == "granted" || env.requestDisplay == "granted" then
    let plannerPending :=
      (env.pending.filter (fun n => n.extraKind == some "planner")).map (fun n => n.id)
    let cancelCall := if plannerPending.isEmpty then none else some plannerPending
    if planner.bind (fun p => p.remindersEnabled) == some false then ⟨cancelCall, none⟩
    else
      let ds := plannerDescriptors planner referenceDate
      ⟨cancelCall, if ds.isEmpty then none else some ds⟩
  else ⟨none, none⟩

/-- Recognizer of a follow-up descriptor for a given day key and required
task: loop tag `follow-up`, matching `extra.dateKey` and matching
`extra.taskId`. -/
def isFollowUpFor (dateKey : String) (k : RequiredPlannerTaskKey) (n : Notification) : Bool :=
  n.extra.loop == some "follow-up" && n.extra.dateKey == some dateKey
    && n.extra.taskId == ("required-" ++ k.str)

/-- The definition-list entry of a required task key. -/
def taskDefOf : RequiredPlannerTaskKey → RequiredTaskDef
  | .water => ⟨.water, "Drink water"⟩
  | .exercise => ⟨.exercise, "Exercise"⟩
  | .meditation => ⟨.meditation, "Meditation"⟩

/-- The position of a required task key in `requiredTaskDefinitions`. -/
def taskIndexOf : RequiredPlannerTaskKey → Nat
  | .water => 0
  | .exercise => 1
  | .meditation => 2

/-- The normalization the three state-update functions guarantee on their
result, relative to the input state: `remindersEnabled` defined (and true
when it was absent), `reminderTimes` present with every key defined (and at
its documented default when absent in the input), `customItems` and
`completions` present. -/
def plannerMetaNormalized (r : PlannerMeta) (planner : Option PlannerMeta) : Bool :=
  let inTimes := (planner.bind (fun p => p.reminderTimes)).getD ⟨none, none, none⟩
  let outTimes := r.reminderTimes.getD ⟨none, none, none⟩
  r.remindersEnabled.isSome
    && (!(planner.bind (fun p => p.remindersEnabled)).isNone
          || r.remindersEnabled == some true)
    && r.reminderTimes.isSome
    && ([RequiredPlannerTaskKey.water, .exercise, .meditation].all (fun k =>
          (outTimes.get k).isSome
            && (!(inTimes.get k).isNone
                  || outTimes.get k == some (defaultReminderTimes.get k))))
    && r.customItems.isSome
    && r.completions.isSome

/-- Value of an optional list produced by the scheduler's "only call the
port when non-empty" pattern. -/
theorem optionalCall_getD {α : Type} (l : List α) :
    (if l.isEmpty then (none : Option (List α)) else some l).getD [] = l := by
  by_cases h : l.isEmpty = true
  · rw [if_pos h, Option.getD_none, List.isEmpty_iff.mp h]
  · rw [if_neg h, Option.getD_some]

/-- C9: `plannerNotificationId` is computed by a polynomial rolling hash
with 32-bit wraparound and, for every input string, returns a non-negative
integer strictly below 2000000000; being a plain function of its input, two
descriptors built from the same key string receive the same id. -/
theorem plannerNotificationId_bound (s : String) :
    0 ≤ plannerNotificationId s ∧ plannerNotificationId s < 2000000000 := by
  unfold plannerNotificationId
  refine ⟨Int.ofNat_nonneg _, ?_⟩
  exact_mod_cast Nat.mod_lt _ (by norm_num)

/-- C1: the scheduler's descriptor computation and the entry projector are
deterministic — structurally equal `(state, referenceDate)` inputs (under
the same device conditions) produce structurally equal scheduler traces,
and structurally equal `(dateKey, state)` inputs produce structurally equal
entry lists. -/
theorem planner_scheduling_deterministic (env : DeviceEnv) (s s' : Option PlannerMeta)
    (r r' : Int) (dk dk' : String) (hs : s = s') (hr : r = r') (hdk : dk = dk') :
    schedulePlannerNotifications env s r = schedulePlannerNotifications env s' r'
      ∧ getPlannerEntries dk s = getPlannerEntries dk' s' := by
  subst hs; subst hr; subst hdk
  exact ⟨rfl, rfl⟩

/-- Witness for C1 at a concrete device environment, state, reference
instant and date key. -/
theorem planner_scheduling_deterministic_witness :
    schedulePlannerNotifications ⟨"android", "granted", "denied", []⟩ none 1710050400000
        = schedulePlannerNotifications ⟨"android", "granted", "denied", []⟩ none 1710050400000
      ∧ getPlannerEntries "2024-03-10" none = getPlannerEntries "2024-03-10" none :=
  planner_scheduling_deterministic ⟨"android", "granted", "denied", []⟩ none none
    1710050400000 1710050400000 "2024-03-10" "2024-03-10" rfl rfl rfl

/-- C2: when display permission is not granted on the initial query and
still not granted after the request, the scheduler returns without issuing
a cancel call or a schedule call, leaving the device's pending set
unchanged. -/
theorem permission_gate_atomic (env : DeviceEnv) (planner : Option PlannerMeta)
    (referenceDate : Int)
    (h1 : env.checkDisplay ≠ "granted") (h2 : env.requestDisplay ≠ "granted") :
    schedulePlannerNotifications env planner referenceDate = ⟨none, none⟩ := by
  unfold schedulePlannerNotifications
  have hc : (env.checkDisplay == "granted") = false := beq_eq_false_iff_ne.mpr h1
  have hr : (env.requestDisplay == "granted") = false := beq_eq_false_iff_ne.mpr h2
  by_cases hw : env.platform == "web" <;> simp [hw, hc, hr]

/-- Witness for C2: denied on both queries at a concrete input, with a
planner-tagged notification pending. -/
theorem permission_gate_atomic_witness :
    ("denied" : String) ≠ "granted"
      ∧ schedulePlannerNotifications ⟨"android", "denied", "denied", [⟨3, some "planner"⟩]⟩
          none 1710050400000 = ⟨none, none⟩ :=
  ⟨by decide,
   permission_gate_atomic ⟨"android", "denied", "denied", [⟨3, some "planner"⟩]⟩ none
     1710050400000 (by decide) (by decide)⟩

/-- C6: with permission granted and `remindersEnabled = false`, the
scheduler cancels exactly the pending notifications tagged
`kind = "planner"` and makes no schedule call, leaving the scheduled set
empty. -/
theorem global_disable_cancels_and_schedules_nothing (env : DeviceEnv)
    (planner : Option PlannerMeta) (referenceDate : Int)
    (hweb : env.platform ≠ "web")
    (hperm : env.checkDisplay = "granted" ∨ env.requestDisplay = "granted")
    (hdis : planner.bind (fun p => p.remindersEnabled) = some false) :
    (schedulePlannerNotifications env planner referenceDate).scheduleCall = none
      ∧ (schedulePlannerNotifications env planner referenceDate).cancelCall.getD []
          = (env.pending.filter (fun n => n.extraKind == some "planner")).map (fun n => n.id) := by
  unfold schedulePlannerNotifications
  have hw : (env.platform == "web") = false := beq_eq_false_iff_ne.mpr hweb
  have hp : (env.checkDisplay == "granted" || env.requestDisplay == "granted") = true := by
    rcases hperm with h | h <;> simp [h]
  have hd : (planner.bind (fun p => p.remindersEnabled) == some false) = true := by
    simp [hdis]
  simp only [hw, hp, hd, Bool.false_eq_true, if_false, if_true]
  exact ⟨by trivial, optionalCall_getD _⟩

/-- Witness for C6 at a concrete environment holding one planner-tagged and
one untagged pending notification. -/
theorem global_disable_witness :
    ("android" : String) ≠ "web"
      ∧ (("granted" : String) = "granted" ∨ ("denied" : String) = "granted")
      ∧ (some (PlannerMeta.mk (some false) none none none)).bind
          (fun p => p.remindersEnabled) = some false
      ∧ ((schedulePlannerNotifications
            ⟨"android", "granted", "denied", [⟨7, some "planner"⟩, ⟨8, none⟩]⟩
            (some ⟨some false, none, none, none⟩) 1710050400000).scheduleCall = none
      ∧ (schedulePlannerNotifications
            ⟨"android", "granted", "denied", [⟨7, some "planner"⟩, ⟨8, none⟩]⟩
            (some ⟨some false, none, none, none⟩) 1710050400000).cancelCall.getD []
          = (([⟨7, some "planner"⟩, ⟨8, none⟩] : List PendingNotification).filter
              (fun n => n.extraKind == some "planner")).map (fun n => n.id)) :=
  ⟨by decide, Or.inl rfl, by decide,
   global_disable_cancels_and_schedules_nothing
     ⟨"android", "granted", "denied", [⟨7, some "planner"⟩, ⟨8, none⟩]⟩
     (some ⟨some false, none, none, none⟩) 1710050400000
     (by decide) (Or.inl rfl) (by decide)⟩

/-- Membership in a keyed insertion. -/
theorem mem_insertKeyed {α : Type} (key : α → String) (x a : α) (l : List α) :
    a ∈ insertKeyed key x l ↔ a = x ∨ a ∈ l := by
  induction l with
  | nil => simp [insertKeyed]
  | cons y ys ih =>
    by_cases h : key y ≤ key x
    · rw [insertKeyed, if_pos h]
      simp only [List.mem_cons, ih]
      tauto
    · rw [insertKeyed, if_neg h]
      simp [List.mem_cons]

/-- Keyed insertion into a key-sorted list is key-sorted. -/
theorem pairwise_insertKeyed {α : Type} (key : α → String) (x : α) {l : List α}
    (h : l.Pairwise (fun a b => key a ≤ key b)) :
    (insertKeyed key x l).Pairwise (fun a b => key a ≤ key b) := by
  induction l with
  | nil => simp [insertKeyed]
  | cons y ys ih =>
    rcases List.pairwise_cons.mp h with ⟨hy, hys⟩
    by_cases hle : key y ≤ key x
    · rw [insertKeyed, if_pos hle]
      refine List.pairwise_cons.mpr ⟨?_, ih hys⟩
      intro a ha
      rcases (mem_insertKeyed key x a ys).mp ha with rfl | hmem
      · exact hle
      · exact hy a hmem
    · rw [insertKeyed, if_neg hle]
      refine List.pairwise_cons.mpr ⟨?_, h⟩
      intro a ha
      have hxy : key x ≤ key y := le_of_not_le hle
      rcases List.mem_cons.mp ha with rfl | hmem
      · exact hxy
      · exact hxy.trans (hy a hmem)

/-- Stability of keyed insertion: on a key-sorted list, the elements with a
given key value are preserved in order, with the inserted element appended
after its key-equal elements. -/
theorem filter_insertKeyed {α : Type} (key : α → String) (x : α) (t : String) {l : List α}
    (h : l.Pairwise (fun a b => key a ≤ key b)) :
    (insertKeyed key x l).filter (fun e => key e == t)
      = l.filter (fun e => key e == t) ++ (if key x == t then [x] else []) := by
  induction l with
  | nil =>
    rw [insertKeyed]
    simp [List.filter_cons]
  | cons y ys ih =>
    rcases List.pairwise_cons.mp h with ⟨hy, hys⟩
    by_cases hle : key y ≤ key x
    · rw [insertKeyed, if_pos hle, List.filter_cons, List.filter_cons, ih hys]
      by_cases hyt : (key y == t) = true <;> simp [hyt]
    · rw [insertKeyed, if_neg hle, List.filter_cons]
      have hlt : key x < key y := lt_of_not_le hle
      by_cases hxt : (key x == t) = true
      · rw [if_pos hxt]
        have ht : key x = t := eq_of_beq hxt
        have hnil : (y :: ys).filter (fun e => key e == t) = [] := by
          refine List.filter_eq_nil_iff.mpr ?_
          intro a ha
          have hya : key y ≤ key a := by
            rcases List.mem_cons.mp ha with rfl | hmem
            · exact le_refl _
            · exact hy a hmem
          have : t < key a := ht ▸ lt_of_lt_of_le hlt hya
          simp [beq_iff_eq]
          exact fun hc => absurd hc (ne_of_gt this)
        rw [hnil, hxt]
        simp [List.filter_cons, hnil]
      · rw [if_neg hxt]
        simp only [Bool.not_eq_true] at hxt
        simp [List.filter_cons, hxt]

/-- Membership through the insertion-sort fold. -/
theorem mem_sortKeyed_go {α : Type} (key : α → String) :
    ∀ (l acc : List α) (a : α),
      a ∈ l.foldl (fun acc x => insertKeyed key x acc) acc ↔ a ∈ acc ∨ a ∈ l := by
  intro l
  induction l with
  | nil => intro acc a; simp
  | cons x xs ih =>
    intro acc a
    rw [List.foldl_cons, ih, mem_insertKeyed]
    simp only [List.mem_cons]
    tauto

/-- The insertion-sort fold preserves key-sortedness of the accumulator. -/
theorem pairwise_sortKeyed_go {α : Type} (key : α → String) :
    ∀ (l acc : List α), acc.Pairwise (fun a b => key a ≤ key b) →
      (l.foldl (fun acc x => insertKeyed key x acc) acc).Pairwise (fun a b => key a ≤ key b) := by
  intro l
  induction l with
  | nil => intro acc h; simpa using h
  | cons x xs ih =>
    intro acc h
    rw [List.foldl_cons]
    exact ih _ (pairwise_insertKeyed key x h)

/-- Stability through the insertion-sort fold: key-equal elements keep their
relative input order behind the (key-sorted) accumulator. -/
theorem filter_sortKeyed_go {α : Type} (key : α → String) (t : String) :
    ∀ (l acc : List α), acc.Pairwise (fun a b => key a ≤ key b) →
      (l.foldl (fun acc x => insertKeyed key x acc) acc).filter (fun e => key e == t)
        = acc.filter (fun e => key e == t) ++ l.filter (fun e => key e == t) := by
  intro l
  induction l with
  | nil => intro acc _; simp
  | cons x xs ih =>
    intro acc h
    rw [List.foldl_cons, ih _ (pairwise_insertKeyed key x h), filter_insertKeyed key x t h,
      List.filter_cons]
    by_cases hxt : (key x == t) = true
    · rw [if_pos hxt, if_pos hxt, List.append_assoc]
      rfl
    · rw [if_neg hxt, if_neg hxt, List.append_nil]

/-- Membership is invariant under the stable sort. -/
theorem mem_sortKeyed {α : Type} (key : α → String) (l : List α) (a : α) :
    a ∈ sortKeyed key l ↔ a ∈ l := by
  rw [sortKeyed, mem_sortKeyed_go]
  simp

/-- The stable sort is key-sorted. -/
theorem pairwise_sortKeyed {α : Type} (key : α → String) (l : List α) :
    (sortKeyed key l).Pairwise (fun a b => key a ≤ key b) :=
  pairwise_sortKeyed_go key l [] List.Pairwise.nil

/-- The stable sort preserves the relative order of key-equal elements. -/
theorem filter_sortKeyed {α : Type} (key : α → String) (l : List α) (t : String) :
    (sortKeyed key l).filter (fun e => key e == t) = l.filter (fun e => key e == t) := by
  rw [sortKeyed, filter_sortKeyed_go key t l [] List.Pairwise.nil]
  simp

/-- C8: the projected entry list of a day is sorted by the time string in
ascending lexicographic order, and entries with identical time keep their
relative pre-sort order (required entries before custom entries with the
same time, the required entries themselves in the fixed water, exercise,
meditation order, since that is their order in the pre-sort
concatenation). -/
theorem entries_sorted_and_stable (dateKey : String) (planner : Option PlannerMeta) :
    (getPlannerEntries dateKey planner).Pairwise (fun a b => a.time ≤ b.time)
      ∧ ∀ t : String,
        (getPlannerEntries dateKey planner).filter (fun e => e.time == t)
          = (plannerEntriesUnsorted dateKey planner).filter (fun e => e.time == t) :=
  ⟨pairwise_sortKeyed (fun e => e.time) (plannerEntriesUnsorted dateKey planner),
   fun t => filter_sortKeyed (fun e => e.time) (plannerEntriesUnsorted dateKey planner) t⟩

/-- Entries produced by the required-task block are flagged required. -/
theorem required_of_mem_requiredEntriesFor (dateKey : String) (planner : Option PlannerMeta)
    (e : PlannerEntry) (he : e ∈ requiredEntriesFor dateKey planner) : e.required = true := by
  rcases List.mem_map.mp he with ⟨task, _, rfl⟩
  rfl

/-- Characterization of membership of a projected custom entry among the
day's custom entries. -/
theorem mem_customEntriesFor_iff (dateKey : String) (planner : Option PlannerMeta)
    (c : PlannerCustomItem) :
    customEntryFor dateKey planner c ∈ customEntriesFor dateKey planner
      ↔ ∃ i ∈ customItemsOf planner, plannerCustomFilter dateKey i = true
          ∧ customEntryFor dateKey planner i = customEntryFor dateKey planner c := by
  constructor
  · intro h
    rcases List.mem_map.mp h with ⟨i, hi, heq⟩
    rcases List.mem_filter.mp hi with ⟨hmem, hfil⟩
    exact ⟨i, hmem, hfil, heq⟩
  · rintro ⟨i, hmem, hfil, heq⟩
    exact List.mem_map.mpr ⟨i, List.mem_filter.mpr ⟨hmem, hfil⟩, heq⟩

/-- C7: a custom item with `repeat = daily` and stored date `D` appears in
the projected entry list of day `d` exactly when `D <= d` (string
comparison), and a custom item with `repeat = once` appears exactly when
`D = d`; hence a daily item appears on every day at or after its start date
and never before, and a once item appears in exactly one day's
projection. -/
theorem custom_item_inclusion (dateKey : String) (planner : Option PlannerMeta)
    (c : PlannerCustomItem) (hc : c ∈ customItemsOf planner) :
    (c.«repeat» = some .daily →
        (customEntryFor dateKey planner c ∈ getPlannerEntries dateKey planner
          ↔ jsStringLe c.date dateKey = true))
      ∧ (c.«repeat» = some .once →
        (customEntryFor dateKey planner c ∈ getPlannerEntries dateKey planner
          ↔ c.date = dateKey)) := by
  have hsplit : customEntryFor dateKey planner c ∈ getPlannerEntries dateKey planner
      ↔ customEntryFor dateKey planner c ∈ customEntriesFor dateKey planner := by
    rw [getPlannerEntries, mem_sortKeyed, plannerEntriesUnsorted, List.mem_append]
    constructor
    · intro h
      rcases h with hreq | hcust
      · have := required_of_mem_requiredEntriesFor dateKey planner _ hreq
        simp [customEntryFor] at this
      · exact hcust
    · exact Or.inr
  constructor
  · intro hrep
    rw [hsplit, mem_customEntriesFor_iff]
    constructor
    · rintro ⟨i, _, hfil, heq⟩
      have hdate : i.date = c.date := congrArg PlannerEntry.date heq
      have hrep2 : i.«repeat».getD .once = c.«repeat».getD .once :=
        congrArg PlannerEntry.«repeat» heq
      rw [hrep] at hrep2
      have hidaily : i.«repeat» = some .daily := by
        cases hi2 : i.«repeat» with
        | none => rw [hi2] at hrep2; simp [Option.getD] at hrep2
        | some r =>
          cases r with
          | once => rw [hi2] at hrep2; simp [Option.getD] at hrep2
          | daily => rfl
      rw [plannerCustomFilter, hidaily] at hfil
      simp only [beq_self_eq_true, if_true] at hfil
      exact hdate ▸ hfil
    · intro hle
      refine ⟨c, hc, ?_, rfl⟩
      rw [plannerCustomFilter, hrep]
      simp [hle]
  · intro hrep
    rw [hsplit, mem_customEntriesFor_iff]
    constructor
    · rintro ⟨i, _, hfil, heq⟩
      have hdate : i.date = c.date := congrArg PlannerEntry.date heq
      have hrep2 : i.«repeat».getD .once = c.«repeat».getD .once :=
        congrArg PlannerEntry.«repeat» heq
      rw [hrep] at hrep2
      have hinotdaily : (i.«repeat» == some PlannerRepeat.daily) = false := by
        cases hi2 : i.«repeat» with
        | none => rfl
        | some r =>
          cases r with
          | once => rfl
          | daily => rw [hi2] at hrep2; simp [Option.getD] at hrep2
      rw [plannerCustomFilter, hinotdaily] at hfil
      simp only [Bool.false_eq_true, if_false, beq_iff_eq] at hfil
      exact hdate ▸ hfil
    · intro heqd
      refine ⟨c, hc, ?_, rfl⟩
      rw [plannerCustomFilter, hrep]
      simp [heqd]

/-- Witness for C7: a concrete state holding one daily and one once item,
checked on a day after the daily item's start date and equal to the once
item's date. -/
theorem custom_item_inclusion_witness :
    (⟨"d1", "Stretch", "2024-03-08", "08:30", some .daily⟩ : PlannerCustomItem)
        ∈ customItemsOf (some ⟨none, none,
            some [⟨"d1", "Stretch", "2024-03-08", "08:30", some .daily⟩,
                  ⟨"o1", "Call mom", "2024-03-10", "09:00", some .once⟩], none⟩)
      ∧ (((⟨"d1", "Stretch", "2024-03-08", "08:30", some .daily⟩ : PlannerCustomItem).«repeat»
            = some .daily →
          (customEntryFor "2024-03-10"
              (some ⟨none, none,
                some [⟨"d1", "Stretch", "2024-03-08", "08:30", some .daily⟩,
                      ⟨"o1", "Call mom", "2024-03-10", "09:00", some .once⟩], none⟩)
              ⟨"d1", "Stretch", "2024-03-08", "08:30", some .daily⟩
            ∈ getPlannerEntries "2024-03-10"
              (some ⟨none, none,
                some [⟨"d1", "Stretch", "2024-03-08", "08:30", some .daily⟩,
                      ⟨"o1", "Call mom", "2024-03-10", "09:00", some .once⟩], none⟩)
            ↔ jsStringLe "2024-03-08" "2024-03-10" = true))
        ∧ ((⟨"d1", "Stretch", "2024-03-08", "08:30", some .daily⟩ : PlannerCustomItem).«repeat»
            = some .once →
          (customEntryFor "2024-03-10"
              (some ⟨none, none,
                some [⟨"d1", "Stretch", "2024-03-08", "08:30", some .daily⟩,
                      ⟨"o1", "Call mom", "2024-03-10", "09:00", some .once⟩], none⟩)
              ⟨"d1", "Stretch", "2024-03-08", "08:30", some .daily⟩
            ∈ getPlannerEntries "2024-03-10"
              (some ⟨none, none,
                some [⟨"d1", "Stretch", "2024-03-08", "08:30", some .daily⟩,
                      ⟨"o1", "Call mom", "2024-03-10", "09:00", some .once⟩], none⟩)
            ↔ ("2024-03-08" : String) = "2024-03-10"))) :=
  ⟨by decide,
   custom_item_inclusion "2024-03-10"
     (some ⟨none, none,
       some [⟨"d1", "Stretch", "2024-03-08", "08:30", some .daily⟩,
             ⟨"o1", "Call mom", "2024-03-10", "09:00", some .once⟩], none⟩)
     ⟨"d1", "Stretch", "2024-03-08", "08:30", some .daily⟩ (by decide)⟩

/-- The string task ids of the required keys are pairwise distinct. -/
theorem requiredTaskId_inj (a b : RequiredPlannerTaskKey)
    (h : "required-" ++ a.str = "required-" ++ b.str) : a = b := by
  cases a <;> cases b <;> first | rfl | exact absurd h (by decide)

/-- Base repeating descriptors carry the loop tag `daily-base`. -/
theorem loop_of_mem_baseNotifications (planner : Option PlannerMeta) (n : Notification)
    (h : n ∈ baseNotifications planner) : n.extra.loop = some "daily-base" := by
  rcases List.mem_map.mp h with ⟨p, _, rfl⟩
  rfl

/-- Custom one-shot descriptors carry no loop tag. -/
theorem loop_of_mem_dayCustomOneShots (planner : Option PlannerMeta) (referenceDate : Int)
    (dateKey : String) (n : Notification)
    (h : n ∈ dayCustomOneShots planner referenceDate dateKey) : n.extra.loop = none := by
  rw [dayCustomOneShots] at h
  rcases List.mem_filterMap.mp h with ⟨item, _, hsome⟩
  split at hsome
  · simp at hsome
  · simp only at hsome
    split at hsome
    · simp at hsome
    · cases hsome
      rfl

/-- Daily custom repeating descriptors carry the loop tag `daily-custom`. -/
theorem loop_of_mem_dailyCustomNotifications (planner : Option PlannerMeta) (n : Notification)
    (h : n ∈ dailyCustomNotifications planner) : n.extra.loop = some "daily-custom" := by
  rcases List.mem_map.mp h with ⟨item, _, rfl⟩
  rfl

/-- Inversion of membership in one task's follow-up list: the descriptor
carries the follow-up tags for that day and task, the task was not
completed on that day, and the task's base instant compared strictly after
the reference instant. -/
theorem mem_taskFollowUps (planner : Option PlannerMeta) (referenceDate : Int)
    (dateKey : String) (taskIndex : Nat) (task : RequiredTaskDef) (n : Notification)
    (h : n ∈ taskFollowUps planner referenceDate dateKey taskIndex task) :
    n.extra.loop = some "follow-up" ∧ n.extra.dateKey = some dateKey
      ∧ n.extra.taskId = "required-" ++ task.key.str
      ∧ getCompletion planner dateKey ("required-" ++ task.key.str) = false
      ∧ jsLeDate (createDateTime dateKey ((getReminderTimes planner).get task.key))
          referenceDate = false := by
  simp only [taskFollowUps] at h
  split at h
  · simp at h
  · next hcomp =>
    split at h
    · simp at h
    · next hble =>
      rcases List.mem_filterMap.mp h with ⟨p, _, hsome⟩
      split at hsome
      · simp at hsome
      · cases hsome
        refine ⟨rfl, rfl, rfl, ?_, ?_⟩
        · simpa using hcomp
        · simpa using hble

/-- Every member of a day's follow-up block comes from some task's
follow-up list. -/
theorem mem_dayFollowUps (planner : Option PlannerMeta) (referenceDate : Int)
    (dateKey : String) (n : Notification)
    (h : n ∈ dayFollowUps planner referenceDate dateKey) :
    ∃ taskIndex task, n ∈ taskFollowUps planner referenceDate dateKey taskIndex task := by
  rw [dayFollowUps] at h
  rcases List.mem_flatMap.mp h with ⟨p, _, hn⟩
  exact ⟨p.1, p.2, hn⟩

/-- Conditions under which a follow-up descriptor for `(dateKey, k)` can be
present in the scheduler's descriptor list: the task is not completed for
that day and its base instant did not compare at-or-before the reference
instant. -/
theorem followUp_emitted_conditions (planner : Option PlannerMeta) (referenceDate : Int)
    (dateKey : String) (k : RequiredPlannerTaskKey) (n : Notification)
    (hn : n ∈ plannerDescriptors planner referenceDate)
    (hf : isFollowUpFor dateKey k n = true) :
    getCompletion planner dateKey ("required-" ++ k.str) = false
      ∧ jsLeDate (createDateTime dateKey ((getReminderTimes planner).get k))
          referenceDate = false := by
  simp only [isFollowUpFor, Bool.and_eq_true, beq_iff_eq] at hf
  obtain ⟨⟨hloop, hdk⟩, htid⟩ := hf
  simp only [plannerDescriptors] at hn
  rcases List.mem_append.mp hn with hn01 | hn2
  · rcases List.mem_append.mp hn01 with hn0 | hn1
    · rw [loop_of_mem_baseNotifications planner n hn0] at hloop
      exact absurd (Option.some_injective _ hloop) (by decide)
    · rcases List.mem_flatMap.mp hn1 with ⟨off, _, hnd⟩
      rcases List.mem_append.mp hnd with hfu | hcu
      · rcases mem_dayFollowUps _ _ _ _ hfu with ⟨ti, task, htf⟩
        obtain ⟨_, hdk2, htid2, hcomp, hble⟩ := mem_taskFollowUps _ _ _ _ _ _ htf
        have hkey : lookaheadKey referenceDate off = dateKey := by
          rw [hdk2] at hdk
          exact Option.some_injective _ hdk
        have htk : task.key = k := by
          apply requiredTaskId_inj
          rw [← htid2, htid]
        rw [hkey, htk] at hcomp hble
        exact ⟨hcomp, hble⟩
      · rw [loop_of_mem_dayCustomOneShots _ _ _ _ hcu] at hloop
        exact absurd hloop (by simp)
  · rw [loop_of_mem_dailyCustomNotifications _ _ hn2] at hloop
    exact absurd (Option.some_injective _ hloop) (by decide)

/-- C3: past-due suppression — for a day of the 5-day lookahead window and
a required task, if the task's base due instant (day plus effective HH:MM)
exists and is at or before the reference instant, no follow-up descriptor
is emitted for that (day, task) pair, not even for escalation offsets lying
after the reference instant. -/
theorem past_due_suppression (planner : Option PlannerMeta) (referenceDate : Int)
    (off : Nat) (k : RequiredPlannerTaskKey) (t : Int) (hoff : off < 5)
    (hbase : createDateTime (lookaheadKey referenceDate off)
        ((getReminderTimes planner).get k) = some t)
    (hpast : t ≤ referenceDate) :
    (plannerDescriptors planner referenceDate).all
      (fun n => !isFollowUpFor (lookaheadKey referenceDate off) k n) = true := by
  rw [List.all_eq_true]
  intro n hn
  rw [Bool.not_eq_eq_eq_not, Bool.not_true]
  by_contra hcon
  rw [Bool.not_eq_false] at hcon
  obtain ⟨_, hble⟩ := followUp_emitted_conditions planner referenceDate
    (lookaheadKey referenceDate off) k n hn hcon
  rw [hbase] at hble
  simp only [jsLeDate, decide_eq_false_iff_not] at hble
  exact hble hpast

/-- Witness for C3: default reminder times, reference instant at noon of
2024-03-10, water due 06:45 the same day. -/
theorem past_due_suppression_witness :
    (0 : Nat) < 5
      ∧ createDateTime (lookaheadKey 1710072000000 0)
          ((getReminderTimes none).get .water) = some 1710053100000
      ∧ (1710053100000 : Int) ≤ 1710072000000
      ∧ (plannerDescriptors none 1710072000000).all
          (fun n => !isFollowUpFor (lookaheadKey 1710072000000 0) .water n) = true :=
  ⟨by decide, by decide, by decide,
   past_due_suppression none 1710072000000 0 .water 1710053100000
     (by decide) (by decide) (by decide)⟩

/-- The base repeating descriptors, spelled out. -/
theorem baseNotifications_eq (planner : Option PlannerMeta) :
    baseNotifications planner
      = [mkBaseNotification planner 0 ⟨.water, "Drink water"⟩,
         mkBaseNotification planner 1 ⟨.exercise, "Exercise"⟩,
         mkBaseNotification planner 2 ⟨.meditation, "Meditation"⟩] := rfl

/-- Every required task's base repeating descriptor is in the descriptor
list. -/
theorem mkBase_mem_plannerDescriptors (planner : Option PlannerMeta) (referenceDate : Int)
    (k : RequiredPlannerTaskKey) :
    mkBaseNotification planner (taskIndexOf k) (taskDefOf k)
      ∈ plannerDescriptors planner referenceDate := by
  have hb : mkBaseNotification planner (taskIndexOf k) (taskDefOf k)
      ∈ baseNotifications planner := by
    rw [baseNotifications_eq]
    cases k <;> simp [taskIndexOf, taskDefOf]
  simp only [plannerDescriptors]
  exact List.mem_append.mpr (Or.inl (List.mem_append.mpr (Or.inl hb)))

/-- The descriptor list always contains the three base descriptors, hence
is never empty. -/
theorem plannerDescriptors_not_isEmpty (planner : Option PlannerMeta) (referenceDate : Int) :
    (plannerDescriptors planner referenceDate).isEmpty = false := by
  simp only [plannerDescriptors, baseNotifications_eq, List.cons_append, List.isEmpty_cons]

/-- C4: completed suppression — with permission granted and reminders not
globally disabled, if a required task is marked completed for a lookahead
day then the schedule call carries no follow-up descriptor for that
(day, task) pair (even when its base time is still in the future), while
the task's unconditional daily-base repeating descriptor is still
emitted. -/
theorem completed_suppression (env : DeviceEnv) (planner : Option PlannerMeta)
    (referenceDate : Int) (off : Nat) (k : RequiredPlannerTaskKey)
    (hweb : env.platform ≠ "web")
    (hperm : env.checkDisplay = "granted" ∨ env.requestDisplay = "granted")
    (hen : planner.bind (fun p => p.remindersEnabled) ≠ some false)
    (hoff : off < 5)
    (hdone : getCompletion planner (lookaheadKey referenceDate off)
        ("required-" ++ k.str) = true) :
    (schedulePlannerNotifications env planner referenceDate).scheduleCall
        = some (plannerDescriptors planner referenceDate)
      ∧ (plannerDescriptors planner referenceDate).all
          (fun n => !isFollowUpFor (lookaheadKey referenceDate off) k n) = true
      ∧ mkBaseNotification planner (taskIndexOf k) (taskDefOf k)
          ∈ plannerDescriptors planner referenceDate := by
  refine ⟨?_, ?_, mkBase_mem_plannerDescriptors planner referenceDate k⟩
  · unfold schedulePlannerNotifications
    have hw : (env.platform == "web") = false := beq_eq_false_iff_ne.mpr hweb
    have hp : (env.checkDisplay == "granted" || env.requestDisplay == "granted") = true := by
      rcases hperm with h | h <;> simp [h]
    have hd : (planner.bind (fun p => p.remindersEnabled) == some false) = false := by
      simpa using hen
    simp only [hw, hp, hd, Bool.false_eq_true, if_false, if_true,
      plannerDescriptors_not_isEmpty]
  · rw [List.all_eq_true]
    intro n hn
    rw [Bool.not_eq_eq_eq_not, Bool.not_true]
    by_contra hcon
    rw [Bool.not_eq_false] at hcon
    obtain ⟨hcomp, _⟩ := followUp_emitted_conditions planner referenceDate
      (lookaheadKey referenceDate off) k n hn hcon
    rw [hdone] at hcomp
    exact absurd hcomp (by decide)

/-- Witness for C4: water completed for 2024-03-10 at a 06:00 reference
instant (base 06:45 still in the future). -/
theorem completed_suppression_witness :
    ("android" : String) ≠ "web"
      ∧ (("granted" : String) = "granted" ∨ ("denied" : String) = "granted")
      ∧ (some (PlannerMeta.mk none none none
            (some [("2024-03-10", [("required-water", true)])]))).bind
          (fun p => p.remindersEnabled) ≠ some false
      ∧ (0 : Nat) < 5
      ∧ getCompletion (some ⟨none, none, none,
            some [("2024-03-10", [("required-water", true)])]⟩)
          (lookaheadKey 1710050400000 0) ("required-" ++ RequiredPlannerTaskKey.water.str) = true
      ∧ ((schedulePlannerNotifications ⟨"android", "granted", "denied", []⟩
            (some ⟨none, none, none, some [("2024-03-10", [("required-water", true)])]⟩)
            1710050400000).scheduleCall
          = some (plannerDescriptors
              (some ⟨none, none, none, some [("2024-03-10", [("required-water", true)])]⟩)
              1710050400000)
        ∧ (plannerDescriptors
              (some ⟨none, none, none, some [("2024-03-10", [("required-water", true)])]⟩)
              1710050400000).all
            (fun n => !isFollowUpFor (lookaheadKey 1710050400000 0) .water n) = true
        ∧ mkBaseNotification
            (some ⟨none, none, none, some [("2024-03-10", [("required-water", true)])]⟩)
            (taskIndexOf .water) (taskDefOf .water)
          ∈ plannerDescriptors
              (some ⟨none, none, none, some [("2024-03-10", [("required-water", true)])]⟩)
              1710050400000) :=
  ⟨by decide, Or.inl rfl, by decide, by decide, by decide,
   completed_suppression ⟨"android", "granted", "denied", []⟩
     (some ⟨none, none, none, some [("2024-03-10", [("required-water", true)])]⟩)
     1710050400000 0 .water (by decide) (Or.inl rfl) (by decide) (by decide) (by decide)⟩

/-- Pointwise-equal functions give equal flat-maps. -/
theorem flatMap_congr {α β : Type} {l : List α} {f g : α → List β}
    (h : ∀ a ∈ l, f a = g a) : l.flatMap f = l.flatMap g := by
  induction l with
  | nil => rfl
  | cons x xs ih =>
    rw [List.flatMap_cons, List.flatMap_cons, h x (List.mem_cons_self x xs),
      ih (fun a ha => h a (List.mem_cons_of_mem x ha))]

/-- The effective reminder times ignore the custom-item list. -/
theorem getReminderTimes_customItems (p : PlannerMeta) (x : Option (List PlannerCustomItem)) :
    getReminderTimes (some { p with customItems := x }) = getReminderTimes (some p) := rfl

/-- Completion lookups ignore the custom-item list. -/
theorem getCompletion_customItems (p : PlannerMeta) (x : Option (List PlannerCustomItem))
    (dateKey entryId : String) :
    getCompletion (some { p with customItems := x }) dateKey entryId
      = getCompletion (some p) dateKey entryId := rfl

/-- The base repeating descriptors ignore the custom-item list. -/
theorem baseNotifications_customItems (p : PlannerMeta) (x : Option (List PlannerCustomItem)) :
    baseNotifications (some { p with customItems := x }) = baseNotifications (some p) := rfl

/-- The follow-up blocks ignore the custom-item list. -/
theorem dayFollowUps_customItems (p : PlannerMeta) (x : Option (List PlannerCustomItem))
    (referenceDate : Int) (dateKey : String) :
    dayFollowUps (some { p with customItems := x }) referenceDate dateKey
      = dayFollowUps (some p) referenceDate dateKey := rfl

/-- C5 (amended): a custom item whose repeat is not daily and whose date key
fails the calendar-date parse contributes no emitted descriptor — removing
it leaves the descriptor list unchanged — provided each of the five
lookahead day keys parses as a calendar date; processing of all other
entries and items proceeds unaffected.  (A daily-repeat item is exempt: its
global recurring descriptor is emitted regardless of its date, and a
non-daily item with a parseable date but unparseable time is pushed with an
invalid instant, see the counterexample.) -/
theorem malformed_once_item_inert (p : PlannerMeta) (referenceDate : Int)
    (c : PlannerCustomItem) (l1 l2 : List PlannerCustomItem)
    (hitems : p.customItems = some (l1 ++ c :: l2))
    (hrep : c.«repeat» ≠ some .daily)
    (hbad : parseDateKeyISO c.date = none)
    (hkeys : ∀ off : Nat, off < 5 →
      (parseDateKeyISO (lookaheadKey referenceDate off)).isSome = true) :
    plannerDescriptors (some p) referenceDate
      = plannerDescriptors (some { p with customItems := some (l1 ++ l2) })
          referenceDate := by
  have hrepb : (c.«repeat» == some PlannerRepeat.daily) = false :=
    beq_eq_false_iff_ne.mpr hrep
  have hcip : customItemsOf (some p) = l1 ++ c :: l2 := by
    simp [customItemsOf, hitems]
  have hciq : customItemsOf (some { p with customItems := some (l1 ++ l2) }) = l1 ++ l2 := by
    simp [customItemsOf]
  have hshots : ∀ off : Nat, off < 5 →
      dayCustomOneShots (some p) referenceDate (lookaheadKey referenceDate off)
        = dayCustomOneShots (some { p with customItems := some (l1 ++ l2) })
            referenceDate (lookaheadKey referenceDate off) := by
    intro off hoff
    have hne : c.date ≠ lookaheadKey referenceDate off := by
      intro heq
      have hk := hkeys off hoff
      rw [← heq, hbad] at hk
      simp at hk
    have hfc : plannerCustomFilter (lookaheadKey referenceDate off) c = false := by
      rw [plannerCustomFilter, hrepb]
      simp only [Bool.false_eq_true, if_false]
      exact beq_eq_false_iff_ne.mpr hne
    simp only [dayCustomOneShots, hcip, hciq, getCompletion_customItems]
    rw [List.filter_append, List.filter_cons, List.filter_append]
    rw [hfc]
    simp
  have hdaily : dailyCustomNotifications (some p)
      = dailyCustomNotifications (some { p with customItems := some (l1 ++ l2) }) := by
    simp only [dailyCustomNotifications, hcip, hciq]
    rw [List.filter_append, List.filter_cons, List.filter_append]
    rw [hrepb]
    simp
  simp only [plannerDescriptors, baseNotifications_customItems, dayFollowUps_customItems]
  rw [hdaily]
  refine congrArg₂ (fun a b => a ++ b) (congrArg₂ (fun a b => a ++ b) rfl ?_) rfl
  exact flatMap_congr (fun off hoff => by
    rw [hshots off (List.mem_range.mp hoff)])

/-- Counterexample to C5 as stated: a state with two custom items whose
date keys yield no valid calendar instant when combined with their times —
a daily-repeat item with an unparseable date and a once item with a
lookahead-day date but unparseable time — still has both items contribute
an emitted descriptor (the daily item its global recurring descriptor, the
once item a one-shot descriptor carrying an invalid instant, since the
comparison "invalid <= reference" is false and the push is not skipped). -/
theorem malformed_item_claim_counterexample :
    createDateTime "garbage" "09:00" = none
      ∧ createDateTime "2024-03-10" "soon" = none
      ∧ (plannerDescriptors
          (some ⟨none, none,
            some [⟨"c1", "Garbage date", "garbage", "09:00", some .daily⟩,
                  ⟨"c2", "Bad time", "2024-03-10", "soon", none⟩], none⟩)
          1710050400000).any (fun n => n.extra.taskId == "c1") = true
      ∧ (plannerDescriptors
          (some ⟨none, none,
            some [⟨"c1", "Garbage date", "garbage", "09:00", some .daily⟩,
                  ⟨"c2", "Bad time", "2024-03-10", "soon", none⟩], none⟩)
          1710050400000).any (fun n => n.extra.taskId == "c2") = true :=
  ⟨rfl, rfl, by decide, by decide⟩

/-- Witness for the amended C5 at a concrete state holding one once item
with an unparseable date, checked against a reference instant whose five
lookahead day keys all parse. -/
theorem malformed_once_item_inert_witness :
    (PlannerMeta.mk none none
        (some [⟨"c1", "Errand", "garbage", "09:00", some .once⟩]) none).customItems
      = some ([] ++ (⟨"c1", "Errand", "garbage", "09:00", some .once⟩ : PlannerCustomItem) :: [])
      ∧ (⟨"c1", "Errand", "garbage", "09:00",
            some PlannerRepeat.once⟩ : PlannerCustomItem).«repeat» ≠ some .daily
      ∧ parseDateKeyISO "garbage" = none
      ∧ (parseDateKeyISO (lookaheadKey 1710050400000 0)).isSome = true
      ∧ (parseDateKeyISO (lookaheadKey 1710050400000 1)).isSome = true
      ∧ (parseDateKeyISO (lookaheadKey 1710050400000 2)).isSome = true
      ∧ (parseDateKeyISO (lookaheadKey 1710050400000 3)).isSome = true
      ∧ (parseDateKeyISO (lookaheadKey 1710050400000 4)).isSome = true
      ∧ plannerDescriptors
          (some ⟨none, none, some [⟨"c1", "Errand", "garbage", "09:00", some .once⟩], none⟩)
          1710050400000
        = plannerDescriptors
            (some { (⟨none, none,
                some [⟨"c1", "Errand", "garbage", "09:00", some .once⟩], none⟩ : PlannerMeta)
                with customItems := some ([] ++ []) })
            1710050400000 :=
  ⟨rfl, by decide, rfl, by decide, by decide, by decide, by decide, by decide,
   malformed_once_item_inert
     ⟨none, none, some [⟨"c1", "Errand", "garbage", "09:00", some .once⟩], none⟩
     1710050400000 ⟨"c1", "Errand", "garbage", "09:00", some .once⟩ [] []
     rfl (by decide) rfl (by decide)⟩

/-- Any result record whose fields have the shape the three update
functions produce satisfies the normalization predicate. -/
theorem plannerMetaNormalized_of (planner : Option PlannerMeta)
    (ci : List PlannerCustomItem) (co : List (String × List (String × Bool))) :
    plannerMetaNormalized
      ⟨some ((planner.bind (fun p => p.remindersEnabled)).getD true),
       some (getReminderTimes planner).toOpt, some ci, some co⟩ planner = true := by
  simp only [plannerMetaNormalized, getReminderTimes, ReminderTimes.toOpt]
  rcases hrt : (planner.bind (fun p => p.reminderTimes)).getD ⟨none, none, none⟩ with ⟨w, e, m⟩
  cases hre : planner.bind (fun p => p.remindersEnabled) <;>
    cases w <;> cases e <;> cases m <;>
      simp [ReminderTimesOpt.get, ReminderTimes.get, defaultReminderTimes]

/-- C10: each of the three state-update functions returns a normalized
`PlannerMeta` for every input (including an absent or partial document):
`remindersEnabled` defined (true when it was absent), `reminderTimes`
holding an entry for each required key (defaults 06:45 / 07:15 / 07:45 when
absent), `customItems` and `completions` present; the input value itself is
unchanged (the functions are pure and build a fresh record); and
`addPlannerItem` additionally defaults a missing `repeat` field to `once`
in the stored item. -/
theorem update_functions_normalize (planner : Option PlannerMeta) (dateKey taskId : String)
    (completed : Bool) (item : PlannerCustomItem) (itemId : String) :
    plannerMetaNormalized (updatePlannerCompletion planner dateKey taskId completed) planner = true
      ∧ plannerMetaNormalized (addPlannerItem planner item) planner = true
      ∧ plannerMetaNormalized (removePlannerItem planner itemId) planner = true
      ∧ { item with «repeat» := some (item.«repeat».getD .once) }
          ∈ (addPlannerItem planner item).customItems.getD [] := by
  refine ⟨plannerMetaNormalized_of planner _ _, plannerMetaNormalized_of planner _ _,
    plannerMetaNormalized_of planner _ _, ?_⟩
  show { item with «repeat» := some (item.«repeat».getD .once) }
    ∈ sortKeyed (fun i => i.date ++ "-" ++ i.time)
        (customItemsOf planner ++ [{ item with «repeat» := some (item.«repeat».getD .once) }])
  rw [mem_sortKeyed]
  exact List.mem_append.mpr (Or.inr (List.mem_singleton.mpr rfl))
